import Mathlib

/-!
Verification of `update_dependencies.py` (GOSS-Repository).

The Python script is shallowly embedded: pure helpers become Lean
functions; network I/O becomes explicit environments (`String → Option
String` for HTTP bodies, abstract search results for the Maven search
endpoint); the filesystem becomes an association list of written files.
Machine integers do not occur (Python integers are unbounded), so `Int`
and `Nat` are used directly.
-/

namespace UpdateDeps

/-! ## Version comparator (`compare_versions`, lines 357-387)

`normalize` strips a trailing `[-_](RELEASE|FINAL|GA)` qualifier
(case-insensitively, as `re.sub` with `re.IGNORECASE` does), splits on
the delimiter class `[._-]` (keeping empty tokens, as `re.split` does),
and coerces each token to an integer when Python's `int` accepts it. -/

/-- Delimiters of the regular expression `[._-]`. -/
def isDelim (c : Char) : Bool := c = '.' || c = '_' || c = '-'

/-- `re.split r"[._-]"` on a character list: empty tokens between
consecutive delimiters and at either end are kept, and splitting the
empty string yields one empty token, exactly as `re.split` does. -/
def splitChars : List Char → List (List Char)
  | [] => [[]]
  | c :: cs =>
    match splitChars cs with
    | [] => [[]]
    | t :: ts => if isDelim c then [] :: t :: ts else (c :: t) :: ts

/-- Whether the (already upper-cased) character list ends in the
qualifier `q` preceded by a `-` or `_` delimiter. -/
def hasQual (u : List Char) (q : String) : Bool :=
  (('-' :: q.toList).isSuffixOf u) || (('_' :: q.toList).isSuffixOf u)

/-- `re.sub(r"[-_](RELEASE|FINAL|GA)$", "", v, flags=re.IGNORECASE)`:
remove one trailing release qualifier together with its delimiter.
`Char.toUpper` maps exactly the ASCII letters, matching `re.IGNORECASE`
on this ASCII pattern. -/
def stripQualifier (v : String) : String :=
  let l := v.toList
  let u := l.map Char.toUpper
  if hasQual u "RELEASE" then ⟨l.take (l.length - 8)⟩
  else if hasQual u "FINAL" then ⟨l.take (l.length - 6)⟩
  else if hasQual u "GA" then ⟨l.take (l.length - 3)⟩
  else v

/-- Decimal value of a digit list. -/
def digitsToNat (l : List Char) : Nat :=
  l.foldl (fun n c => 10 * n + (c.toNat - 48)) 0

/-- Leading and trailing whitespace removed, as Python's `int` allows
around the digits. -/
def pyStripWs (l : List Char) : List Char :=
  ((l.dropWhile Char.isWhitespace).reverse.dropWhile Char.isWhitespace).reverse

/-- Python's `int(token)` on a delimiter-free token: optional
whitespace, an optional sign, then a nonempty digit run; `none` models
the `ValueError` branch.  (Tokens produced by `splitChars` never
contain `_`, so the underscore grouping rule of Python's `int` cannot
fire.) -/
def pyInt? (s : List Char) : Option Int :=
  let l := pyStripWs s
  let p : Int × List Char :=
    match l with
    | '+' :: rest => (1, rest)
    | '-' :: rest => (-1, rest)
    | rest => (1, rest)
  if p.2 ≠ [] ∧ p.2.all Char.isDigit then some (p.1 * digitsToNat p.2) else none

/-- One normalized token: an integer when `int(p)` succeeded, the raw
string otherwise. -/
inductive VTok
  | num (n : Int)
  | str (s : String)
deriving DecidableEq, Repr

def tokOf (l : List Char) : VTok :=
  match pyInt? l with
  | some n => .num n
  | none => .str ⟨l⟩

/-- Python's `str()` of a token, used by the comparator's fallback
branch.  `toString : Int → String` renders exactly as Python's
`str(int)` does. -/
def strOfTok : VTok → String
  | .num n => toString n
  | .str s => s

/-- The inner `normalize` of `compare_versions`. -/
def normalize (v : String) : List VTok :=
  (splitChars (stripQualifier v).toList).map tokOf

/-- Python's `<` on strings: lexicographic comparison by code point.
It is computed on the character lists (the `String` order's own
`Decidable` instance does not reduce inside the kernel); by
`String.lt_iff_toList_lt` this is exactly the `<` of `String`. -/
def strLtB (a b : String) : Bool := decide (a.toList < b.toList)

theorem strLtB_iff {a b : String} : strLtB a b = true ↔ a < b := by
  rw [strLtB, decide_eq_true_iff, String.lt_iff_toList_lt]

theorem strLtB_self (a : String) : strLtB a a = false :=
  Bool.eq_false_iff.mpr (fun hh => lt_irrefl a (strLtB_iff.mp hh))

/-- One position of the comparison loop: numeric when both tokens are
integers, string comparison of the `str()` forms otherwise. -/
def cmpTok (a b : VTok) : Int :=
  match a, b with
  | .num x, .num y => if x < y then -1 else if y < x then 1 else 0
  | _, _ =>
    if strLtB (strOfTok a) (strOfTok b) then -1
    else if strLtB (strOfTok b) (strOfTok a) then 1 else 0

/-- The `zip` loop of `compare_versions` followed by the length
comparison.  Comparing the lengths of the unconsumed remainders equals
comparing the full lengths, because the consumed prefixes are equal in
length. -/
def cmpTokList : List VTok → List VTok → Int
  | a :: as, b :: bs =>
    let c := cmpTok a b
    if c = 0 then cmpTokList as bs else c
  | as, bs =>
    if as.length < bs.length then -1
    else if bs.length < as.length then 1 else 0

/-- `compare_versions` (lines 357-387). -/
def compare_versions (v1 v2 : String) : Int :=
  cmpTokList (normalize v1) (normalize v2)

/-! ### Comparator lemmas -/

theorem cmpSign_antisymm (x y : Int) :
    (if x < y then (-1 : Int) else if y < x then 1 else 0)
      = -(if y < x then (-1 : Int) else if x < y then 1 else 0) := by
  rcases lt_trichotomy x y with h | h | h
  · simp [h, asymm h]
  · simp [h]
  · simp [h, asymm h]

theorem cmpSignB_antisymm (s t : String) :
    (if strLtB s t then (-1 : Int) else if strLtB t s then 1 else 0)
      = -(if strLtB t s then (-1 : Int) else if strLtB s t then 1 else 0) := by
  cases h1 : strLtB s t <;> cases h2 : strLtB t s
  · simp
  · simp
  · simp
  · exact absurd (strLtB_iff.mp h2) (asymm (strLtB_iff.mp h1))

theorem cmpTok_antisymm (a b : VTok) : cmpTok a b = -cmpTok b a := by
  cases a <;> cases b <;> simp only [cmpTok] <;>
    first
      | exact cmpSign_antisymm _ _
      | exact cmpSignB_antisymm _ _

theorem cmpTok_self (a : VTok) : cmpTok a a = 0 := by
  cases a <;> simp [cmpTok, strLtB_self]

theorem cmpTok_cases (a b : VTok) :
    cmpTok a b = -1 ∨ cmpTok a b = 0 ∨ cmpTok a b = 1 := by
  cases a <;> cases b <;> simp only [cmpTok] <;> split <;> try split
  all_goals simp

theorem cmpTokList_self : ∀ l : List VTok, cmpTokList l l = 0
  | [] => by simp [cmpTokList]
  | a :: as => by
    simp [cmpTokList, cmpTok_self, cmpTokList_self as]

theorem cmpTokList_antisymm :
    ∀ l1 l2 : List VTok, cmpTokList l1 l2 = -cmpTokList l2 l1
  | [], [] => by simp [cmpTokList]
  | [], b :: bs => by simp [cmpTokList]
  | a :: as, [] => by simp [cmpTokList]
  | a :: as, b :: bs => by
    have h := cmpTok_antisymm a b
    by_cases hz : cmpTok a b = 0
    · have hz' : cmpTok b a = 0 := by omega
      simp [cmpTokList, hz, hz', cmpTokList_antisymm as bs]
    · have hz' : ¬ cmpTok b a = 0 := by omega
      simp [cmpTokList, hz, hz', h]

theorem cmpTokList_cases :
    ∀ l1 l2 : List VTok,
      cmpTokList l1 l2 = -1 ∨ cmpTokList l1 l2 = 0 ∨ cmpTokList l1 l2 = 1
  | a :: as, b :: bs => by
    rcases cmpTok_cases a b with h | h | h <;>
      simp [cmpTokList, h, cmpTokList_cases as bs]
  | [], [] => by simp [cmpTokList]
  | [], b :: bs => by simp [cmpTokList]
  | a :: as, [] => by simp [cmpTokList]

/-! ## Index entries and the per-identity selection (`main`, lines 789-801)

`main` groups the parsed index rows by `identity` (a Python dict, so
identities keep first-occurrence order and each group keeps insertion
order, which is exactly a filter of the original list), then sorts each
group with `versions.sort(key=lambda x: x['version'], reverse=True)` —
a plain descending sort on the RAW version string — and keeps the head.
Python's sort is stable, so among equal raw strings the first original
entry survives. -/

structure BundleEntry where
  identity : String
  version : String
  url : String
deriving DecidableEq, Repr

/-- Stable insertion for a descending sort on the raw `version` string:
the new element goes in front of the first element whose key is not
greater, which preserves original order among equal keys, as Python's
stable `list.sort(..., reverse=True)` does. -/
def insertDescByVersion (e : BundleEntry) : List BundleEntry → List BundleEntry
  | [] => [e]
  | f :: fs => if strLtB e.version f.version then f :: insertDescByVersion e fs
               else e :: f :: fs

/-- `versions.sort(key=lambda x: x['version'], reverse=True)`. -/
def sortDescByVersion : List BundleEntry → List BundleEntry
  | [] => []
  | e :: es => insertDescByVersion e (sortDescByVersion es)

/-- Identities not yet seen, kept in first-occurrence order. -/
def dedupFirstAux (seen : List String) : List String → List String
  | [] => []
  | x :: xs => if seen.contains x then dedupFirstAux seen xs
               else x :: dedupFirstAux (seen ++ [x]) xs

/-- The identities in first-occurrence order: the key order of the
`bundle_versions` dict `main` builds. -/
def dedupFirst (l : List String) : List String := dedupFirstAux [] l

/-- The dict entry `bundle_versions[i]`: the index rows with identity
`i`, in original order. -/
def bundle_versions (bs : List BundleEntry) (i : String) : List BundleEntry :=
  bs.filter (fun e => e.identity == i)

/-- `latest_bundles` (lines 798-801): for each identity, the head of
its group sorted descending by raw version string. -/
def latest_bundles (bs : List BundleEntry) : List (String × BundleEntry) :=
  (dedupFirst (bs.map (fun e => e.identity))).filterMap
    (fun i => ((sortDescByVersion (bundle_versions bs i)).head?).map (fun e => (i, e)))

/-! ### Sort lemmas for the amended C1 -/

theorem mem_insertDescByVersion {x e : BundleEntry} :
    ∀ {l : List BundleEntry}, x ∈ insertDescByVersion e l ↔ x = e ∨ x ∈ l
  | [] => by simp [insertDescByVersion]
  | f :: fs => by
    simp only [insertDescByVersion]
    split
    · simp [mem_insertDescByVersion (l := fs)]
      tauto
    · simp

theorem sortDescByVersion_head_max :
    ∀ {l : List BundleEntry} {e : BundleEntry},
      (sortDescByVersion l).head? = some e →
      e ∈ l ∧ ∀ f ∈ l, ¬ e.version < f.version
  | [], e => by simp [sortDescByVersion]
  | a :: as, e => by
    intro h
    simp only [sortDescByVersion] at h
    rcases hs : sortDescByVersion as with _ | ⟨b, bs⟩
    · rw [hs] at h
      simp only [insertDescByVersion, List.head?] at h
      obtain rfl : a = e := by injection h
      refine ⟨List.mem_cons_self _ _, ?_⟩
      intro f hf
      rcases List.mem_cons.mp hf with rfl | hf
      · exact lt_irrefl _
      · -- `as` sorts to `[]`, so `as = []` and `f ∈ []' is absurd
        cases as with
        | nil => simp at hf
        | cons a' as' =>
          simp only [sortDescByVersion] at hs
          cases h' : insertDescByVersion a' (sortDescByVersion as') with
          | nil =>
            exfalso
            cases hl : sortDescByVersion as' with
            | nil => rw [hl] at h'; simp [insertDescByVersion] at h'
            | cons c cs =>
              rw [hl] at h'
              simp only [insertDescByVersion] at h'
              split at h' <;> simp at h'
          | cons c cs => rw [h'] at hs; simp at hs
    · rw [hs] at h
      simp only [insertDescByVersion] at h
      split at h
      · -- a.version < b.version: the head stays b, the max of `as`
        next hab =>
        simp only [List.head?] at h
        obtain rfl : b = e := by injection h
        have ih := sortDescByVersion_head_max (l := as) (e := b) (by rw [hs]; rfl)
        refine ⟨List.mem_cons_of_mem _ ih.1, ?_⟩
        intro f hf
        rcases List.mem_cons.mp hf with rfl | hf
        · exact asymm (strLtB_iff.mp hab)
        · exact ih.2 f hf
      · -- ¬ a.version < b.version: the head becomes a
        next hab =>
        simp only [List.head?] at h
        obtain rfl : a = e := by injection h
        refine ⟨List.mem_cons_self _ _, ?_⟩
        intro f hf
        rcases List.mem_cons.mp hf with rfl | hf
        · exact lt_irrefl _
        · have ih := sortDescByVersion_head_max (l := as) (e := b) (by rw [hs]; rfl)
          have hbf := ih.2 f hf
          intro haf
          exact hab (strLtB_iff.mpr (lt_of_lt_of_le haf (not_lt.mp hbf)))

/-! ## Claim theorems for the Version Comparator -/

/-- C3: the version comparator satisfies `compare(v, v) == 0` for every
string `v`, `compare(a, b) == -compare(b, a)` for all strings, and the
three quoted concrete comparisons: `1.2.0 < 1.10.0` numerically, the
`-RELEASE` suffix is stripped, and a shorter all-equal prefix is
lesser. -/
theorem compare_versions_spec :
    (∀ v, compare_versions v v = 0) ∧
    (∀ a b, compare_versions a b = -compare_versions b a) ∧
    compare_versions "1.2.0" "1.10.0" = -1 ∧
    compare_versions "2.0.0-RELEASE" "2.0.0" = 0 ∧
    compare_versions "1.0" "1.0.0" = -1 :=
  ⟨fun _ => cmpTokList_self _, fun _ _ => cmpTokList_antisymm _ _,
   by decide, by decide, by decide⟩

/-- C8: the comparator is total — for every pair of input strings
(malformed, empty, or with consecutive delimiters included) it returns
one of -1, 0, 1; in the embedding it is a total function, mirroring
that every Python token resolves to an `int` or a `str` and no
exception escapes. -/
theorem compare_versions_total :
    ∀ a b : String,
      compare_versions a b = -1 ∨ compare_versions a b = 0 ∨ compare_versions a b = 1 :=
  fun _ _ => cmpTokList_cases _ _

/-! ## Claim theorems for the per-identity selection (C1) -/

/-- The entry the counterexample keeps: raw string `"1.2.0"` sorts above
`"1.10.0"` lexicographically. -/
def cexEntryLow : BundleEntry := ⟨"x", "1.2.0", "u1"⟩

/-- The numerically higher entry the code discards. -/
def cexEntryHigh : BundleEntry := ⟨"x", "1.10.0", "u2"⟩

/-- C1 is false as stated: with two index entries for identity `x`, the
engine keeps the `1.2.0` entry even though the Version Comparator ranks
it strictly below the discarded `1.10.0` — the selection sorts the raw
version strings and never consults the numeric comparator. -/
theorem latest_bundles_ignores_comparator :
    latest_bundles [cexEntryLow, cexEntryHigh] = [("x", cexEntryLow)] ∧
    compare_versions cexEntryLow.version cexEntryHigh.version = -1 := by decide

/-- C1 amended: for every identity, the engine retains an entry of the
index whose RAW version string is lexicographically maximal among the
entries sharing that identity (ties keep the first listed); the numeric
comparator plays no part in this selection. -/
theorem latest_bundles_max_raw_string (bs : List BundleEntry) (i : String) (e : BundleEntry)
    (h : (i, e) ∈ latest_bundles bs) :
    e ∈ bs ∧ e.identity = i ∧ ∀ f ∈ bs, f.identity = i → ¬ e.version < f.version := by
  simp only [latest_bundles, List.mem_filterMap] at h
  obtain ⟨j, hj, hmap⟩ := h
  rcases hopt : (sortDescByVersion (bundle_versions bs j)).head? with _ | e'
  · rw [hopt] at hmap; simp at hmap
  · rw [hopt] at hmap
    simp only [Option.map_some'] at hmap
    have hpair : (j, e') = (i, e) := by injection hmap
    obtain ⟨hji, hee⟩ : j = i ∧ e' = e := by simpa using hpair
    rw [hji, hee] at hopt
    have hm := sortDescByVersion_head_max hopt
    have he : e ∈ bs ∧ e.identity = i := by
      have := List.mem_filter.mp hm.1
      exact ⟨this.1, by simpa using this.2⟩
    refine ⟨he.1, he.2, ?_⟩
    intro f hf hfi
    exact hm.2 f (List.mem_filter.mpr ⟨hf, by simp [hfi]⟩)

/-- The amended C1 theorem applied at the counterexample index. -/
theorem latest_bundles_max_raw_string_witness :
    cexEntryLow ∈ [cexEntryLow, cexEntryHigh] ∧ cexEntryLow.identity = "x" ∧
      ∀ f ∈ [cexEntryLow, cexEntryHigh], f.identity = "x" → ¬ cexEntryLow.version < f.version :=
  latest_bundles_max_raw_string [cexEntryLow, cexEntryHigh] "x" cexEntryLow (by decide)

/-! ## Artifact fetcher (`download_jar` and friends, lines 138-173, 277-295)

HTTP is an environment `String → Option String`: the body a `GET` of a
URL yields, `none` standing for the caught `URLError`/`HTTPError`.  The
filesystem is an association list of written files, later writes in
front.  Directory creation (`mkdir`) writes no file and is dropped. -/

abbrev FS := List (String × String)

def MAVEN_DOWNLOAD_URL : String := "https://repo1.maven.org/maven2"

def BND_HUB_URL : String := "https://raw.githubusercontent.com/bndtools/bundle-hub/master"

/-- The `MAVEN_REPOSITORIES` dict (lines 42-48); a Python dict iterates
in insertion order, which this list fixes. -/
def MAVEN_REPOSITORIES : List (String × String) :=
  [("Maven Central", "https://repo1.maven.org/maven2"),
   ("Spring Plugins", "https://repo.spring.io/plugins-release"),
   ("Spring Libs", "https://repo.spring.io/libs-release"),
   ("JBoss", "https://repository.jboss.org/nexus/content/repositories/releases"),
   ("Sonatype", "https://oss.sonatype.org/content/repositories/releases")]

def jar_name (artifact_id version : String) : String :=
  artifact_id ++ "-" ++ version ++ ".jar"

/-- The download URL `download_jar` builds (line 145). -/
def jar_url (repo_url group_id artifact_id version : String) : String :=
  repo_url ++ "/" ++ group_id.replace "." "/" ++ "/" ++ artifact_id ++ "/"
    ++ version ++ "/" ++ jar_name artifact_id version

/-- The file path `download_jar` writes to (line 149). -/
def dest_path (dest_dir artifact_id version : String) : String :=
  dest_dir ++ "/" ++ jar_name artifact_id version

/-- Python's `needle in hay` on byte strings: substring containment. -/
def containsSub (needle : List Char) : List Char → Bool
  | [] => needle.isPrefixOf []
  | c :: t => needle.isPrefixOf (c :: t) || containsSub needle t

/-- The error-page check of line 157:
`len(data) < 1000 and b'<html' in data.lower()`.  Bodies are modelled
as strings of bytes-as-characters; `Char.toLower` lower-cases exactly
the ASCII letters, as `bytes.lower` does. -/
def html_error_page (data : String) : Bool :=
  data.length < 1000 && containsSub "<html".toList (data.toList.map Char.toLower)

/-- `download_jar` (lines 138-165): `none` for a transport error, the
error-page rejection before any write, otherwise the body persisted at
`dest_dir/<artifactId>-<version>.jar`. -/
def download_jar (http : String → Option String) (group_id artifact_id version : String)
    (dest_dir : String) (repo_url : Option String) (fs : FS) : Bool × FS :=
  let ru := repo_url.getD MAVEN_DOWNLOAD_URL
  match http (jar_url ru group_id artifact_id version) with
  | none => (false, fs)
  | some data =>
    if html_error_page data then (false, fs)
    else (true, (dest_path dest_dir artifact_id version, data) :: fs)

/-- Whether one attempt of `download_jar` against `url` succeeds; this
depends only on the response body, not on the filesystem. -/
def fetch_success (http : String → Option String) (g a v url : String) : Bool :=
  match http (jar_url url g a v) with
  | none => false
  | some data => !html_error_page data

theorem download_jar_rejects_html (http : String → Option String) (g a v d ru : String)
    (fs : FS) (data : String) (hresp : http (jar_url ru g a v) = some data)
    (hh : html_error_page data = true) :
    download_jar http g a v d (some ru) fs = (false, fs) := by
  unfold download_jar
  simp [hresp, hh]

theorem download_jar_writes (http : String → Option String) (g a v d ru : String)
    (fs : FS) (data : String) (hresp : http (jar_url ru g a v) = some data)
    (hh : html_error_page data = false) :
    download_jar http g a v d (some ru) fs = (true, (dest_path d a v, data) :: fs) := by
  unfold download_jar
  simp [hresp, hh]

theorem download_jar_none (http : String → Option String) (g a v d ru : String)
    (fs : FS) (hresp : http (jar_url ru g a v) = none) :
    download_jar http g a v d (some ru) fs = (false, fs) := by
  unfold download_jar
  simp [hresp]

/-- `download_jar_from_multiple_repos` loop body (lines 169-172). -/
def download_multi_go (http : String → Option String) (g a v d : String) :
    List (String × String) → FS → Option String × FS
  | [], fs => (none, fs)
  | (name, url) :: rest, fs =>
    match download_jar http g a v d (some url) fs with
    | (true, fs') => (some name, fs')
    | (false, fs') => download_multi_go http g a v d rest fs'

/-- `download_jar_from_multiple_repos` (lines 167-173). -/
def download_jar_from_multiple_repos (http : String → Option String)
    (g a v d : String) (fs : FS) : Option String × FS :=
  download_multi_go http g a v d MAVEN_REPOSITORIES fs

theorem download_jar_of_fetch_false (http : String → Option String) (g a v d url : String)
    (fs : FS) (h : fetch_success http g a v url = false) :
    download_jar http g a v d (some url) fs = (false, fs) := by
  unfold fetch_success at h
  cases hr : http (jar_url url g a v) with
  | none => exact download_jar_none http g a v d url fs hr
  | some data =>
    rw [hr] at h
    simp only [Bool.not_eq_false'] at h
    exact download_jar_rejects_html http g a v d url fs data hr h

theorem download_jar_of_fetch_true (http : String → Option String) (g a v d url : String)
    (fs : FS) (h : fetch_success http g a v url = true) :
    ∃ data, http (jar_url url g a v) = some data ∧
      download_jar http g a v d (some url) fs = (true, (dest_path d a v, data) :: fs) := by
  unfold fetch_success at h
  cases hr : http (jar_url url g a v) with
  | none => rw [hr] at h; simp at h
  | some data =>
    rw [hr] at h
    simp only [Bool.not_eq_true'] at h
    exact ⟨data, rfl, download_jar_writes http g a v d url fs data hr h⟩

theorem download_multi_go_spec (http : String → Option String) (g a v d : String) :
    ∀ (repos : List (String × String)) (fs : FS),
      (List.find? (fun p => fetch_success http g a v p.2) repos = none →
        download_multi_go http g a v d repos fs = (none, fs)) ∧
      (∀ name url,
        List.find? (fun p => fetch_success http g a v p.2) repos = some (name, url) →
        ∃ data, http (jar_url url g a v) = some data ∧
          download_multi_go http g a v d repos fs
            = (some name, (dest_path d a v, data) :: fs))
  | [], fs => by simp [download_multi_go]
  | (n, u) :: rest, fs => by
    cases hs : fetch_success http g a v u with
    | true =>
      obtain ⟨data, hdata, hdl⟩ := download_jar_of_fetch_true http g a v d u fs hs
      have hfind : List.find? (fun p => fetch_success http g a v p.2) ((n, u) :: rest)
          = some (n, u) := List.find?_cons_of_pos _ hs
      constructor
      · intro hnone
        rw [hfind] at hnone
        exact absurd hnone (by simp)
      · intro name url hsome
        rw [hfind] at hsome
        obtain ⟨h1, h2⟩ : name = n ∧ url = u := by simpa using hsome.symm
        subst h1; subst h2
        refine ⟨data, hdata, ?_⟩
        simp only [download_multi_go, hdl]
    | false =>
      have hdl := download_jar_of_fetch_false http g a v d u fs hs
      have hstep : download_multi_go http g a v d ((n, u) :: rest) fs
          = download_multi_go http g a v d rest fs := by
        simp only [download_multi_go, hdl]
      have hfind : List.find? (fun p => fetch_success http g a v p.2) ((n, u) :: rest)
          = List.find? (fun p => fetch_success http g a v p.2) rest :=
        List.find?_cons_of_neg _ (by simp [hs])
      have ih := download_multi_go_spec http g a v d rest fs
      exact ⟨fun hn => by rw [hstep]; exact ih.1 (hfind ▸ hn),
             fun name url hsome => by rw [hstep]; exact ih.2 name url (hfind ▸ hsome)⟩

/-- C6: `download_jar_from_multiple_repos` tries the repositories in
the fixed `MAVEN_REPOSITORIES` order; the first repository whose
download succeeds decides the result, which pairs success with that
repository's name and writes exactly one file; when every repository
fails the result is failure (`none`) and the filesystem is unchanged —
no partial file is left behind. -/
theorem download_jar_from_multiple_repos_spec (http : String → Option String)
    (g a v d : String) (fs : FS) :
    (List.find? (fun p => fetch_success http g a v p.2) MAVEN_REPOSITORIES = none →
      download_jar_from_multiple_repos http g a v d fs = (none, fs)) ∧
    (∀ name url,
      List.find? (fun p => fetch_success http g a v p.2) MAVEN_REPOSITORIES
        = some (name, url) →
      ∃ data, http (jar_url url g a v) = some data ∧
        download_jar_from_multiple_repos http g a v d fs
          = (some name, (dest_path d a v, data) :: fs)) :=
  download_multi_go_spec http g a v d MAVEN_REPOSITORIES fs

/-- C5: the Maven fetch path rejects a short HTML body (the disguised
error page) without writing, and persists any other received body to
`dest_dir/<artifactId>-<version>.jar`.  (A non-2xx status raises
`HTTPError` in the source and is the `none` response here, so every
`some` body is one received with a successful status.) -/
theorem download_jar_spec (http : String → Option String) (g a v d ru : String)
    (fs : FS) (data : String) (hresp : http (jar_url ru g a v) = some data) :
    (html_error_page data = true →
      download_jar http g a v d (some ru) fs = (false, fs)) ∧
    (html_error_page data = false →
      download_jar http g a v d (some ru) fs = (true, (dest_path d a v, data) :: fs)) :=
  ⟨download_jar_rejects_html http g a v d ru fs data hresp,
   download_jar_writes http g a v d ru fs data hresp⟩

/-- The HTML error page of the spec's test scenario, under 1000 bytes. -/
def htmlBody : String := "<html>Error</html>"

/-- An HTTP environment answering every URL with `htmlBody`. -/
def httpHtml : String → Option String := fun _ => some htmlBody

/-- C5 witness: the fetcher rejects `<html>Error</html>` and writes
nothing. -/
theorem download_jar_spec_witness :
    download_jar httpHtml "g" "a" "1" "d" (some "r") [] = (false, []) :=
  (download_jar_spec httpHtml "g" "a" "1" "d" "r" [] htmlBody rfl).1 (by decide)

/-- `download_from_bnd_hub` (lines 277-295): no error-page validation —
any received body is written as it is. -/
def download_from_bnd_hub (http : String → Option String)
    (bundle_name version : String) (dest_dir : String) (fs : FS) : Bool × FS :=
  match http (BND_HUB_URL ++ "/" ++ bundle_name ++ "/" ++ jar_name bundle_name version) with
  | none => (false, fs)
  | some data => (true, (dest_path dest_dir bundle_name version, data) :: fs)

/-- C10: the BND Hub download path applies no error-page validation:
every received body — an HTML body under 1000 bytes included — is
written to `dest_dir/<name>-<version>.jar` with success, whereas the
Maven fetch path (`download_jar`) rejects exactly such a payload. -/
theorem download_from_bnd_hub_no_validation (http : String → Option String)
    (n v d : String) (fs : FS) (data : String)
    (hresp : http (BND_HUB_URL ++ "/" ++ n ++ "/" ++ jar_name n v) = some data) :
    download_from_bnd_hub http n v d fs = (true, (dest_path d n v, data) :: fs) ∧
    (html_error_page data = true → ∀ g ru,
      download_jar (fun _ => some data) g n v d (some ru) fs = (false, fs)) := by
  constructor
  · unfold download_from_bnd_hub
    simp [hresp]
  · intro hh g ru
    exact download_jar_rejects_html (fun _ => some data) g n v d ru fs data rfl hh

/-- C10 witness: the BND Hub path writes the short HTML body with
success while the Maven path rejects the same body. -/
theorem download_from_bnd_hub_no_validation_witness :
    download_from_bnd_hub httpHtml "n" "1" "d" []
        = (true, [(dest_path "d" "n" "1", htmlBody)]) ∧
    (html_error_page htmlBody = true → ∀ g ru,
      download_jar (fun _ => some htmlBody) g "n" "1" "d" (some ru) [] = (false, [])) :=
  download_from_bnd_hub_no_validation httpHtml "n" "1" "d" [] htmlBody rfl

/-! ## Source resolver (`get_latest_version_from_maven`, lines 118-136)

The search endpoint's answer is abstracted to the three states the
function distinguishes: a caught transport error (`URLError`/
`HTTPError`), a caught malformed response (`JSONDecodeError`/
`KeyError`), or a well-formed JSON body carrying `numFound` and the
`docs` list.  Two degenerate corners of a well-formed body are NOT
caught by the source and are modelled as `Except.error`: `docs[0]` on
an empty `docs` array with `numFound > 0` raises `IndexError`, which
the `except` tuple of line 134 does not include; and a first doc with
neither `latestVersion` nor `v` yields a record whose `version` is
Python's `None`, carried here as `version : Option String`. -/

structure SearchDoc where
  latestVersion : Option String
  v : Option String
  g : String
  a : String
deriving DecidableEq, Repr

inductive SearchResult
  | transportError
  | malformed
  | ok (numFound : Nat) (docs : List SearchDoc)
deriving DecidableEq, Repr

/-- `doc.get('latestVersion', doc.get('v'))` (line 130). -/
def docVersion (d : SearchDoc) : Option String :=
  d.latestVersion.orElse (fun _ => d.v)

structure MavenInfo where
  version : Option String
  group_id : String
  artifact_id : String
deriving DecidableEq, Repr

/-- `get_latest_version_from_maven` (lines 118-136): every caught error
and every zero-match response yields `None` (`.ok none`); `numFound >
0` with an empty `docs` array raises the uncaught `IndexError` of
`docs[0]` (`.error`); otherwise the first doc is returned with its
possibly-missing version field. -/
def get_latest_version_from_maven (resp : SearchResult) : Except Unit (Option MavenInfo) :=
  match resp with
  | .transportError => .ok none
  | .malformed => .ok none
  | .ok numFound docs =>
    if 0 < numFound then
      match docs with
      | [] => .error ()
      | d :: _ => .ok (some ⟨docVersion d, d.g, d.a⟩)
    else .ok none

/-- The version the additional-downloads loop resolves (lines 477-495):
the central search result (whose `IndexError` propagates uncaught here
too), then — only when it is `None` — the `search_mvnrepository`
HTML-scraping fallback, abstracted by the version it scrapes.  The
middle `Option` is found / not-found; the inner `Option String` is the
version value, which is Python's `None` exactly when the matched doc
carried neither version field. -/
def resolve_additional (resp : SearchResult) (mvnrep : Option String) :
    Except Unit (Option (Option String)) :=
  match get_latest_version_from_maven resp with
  | .error u => .error u
  | .ok (some info) => .ok (some info.version)
  | .ok none =>
    match mvnrep with
    | some ver => .ok (some (some ver))
    | none => .ok none

/-! ## Reconciliation classification (`main`, lines 814-896) -/

/-- The six per-entry outcomes; `main` appends each processed index
entry to exactly one of the six result lists — unless it dies on one of
the two uncaught-exception corners, which append nothing. -/
inductive Outcome
  | notMapped
  | localOnly
  | unavailable
  | upToDate
  | updated (oldV newV : String)
  | error (reason : String)
deriving DecidableEq, Repr

/-- The decision chain of `main`'s index loop for one entry
(lines 814-896): `mapping` is the `BUNDLE_TO_MAVEN` lookup (`none` =
identity absent, `some none` = mapped local / without coordinates).
Past the mapping, the central search result decides: a raised
`IndexError` inside the resolver propagates (`.error`); not-found is
`unavailable`; a resolved doc without a version field makes
`compare_versions(local_version, None)` at line 863 raise an uncaught
`TypeError` (`.error`); otherwise the comparator and the fetch decide
among `upToDate`, `updated` and `error`. -/
def main_classify_index_entry (mapping : Option (Option (String × String)))
    (search : String → String → SearchResult)
    (fetch_ok : String → String → String → Bool)
    (local_version : String) : Except Unit Outcome :=
  match mapping with
  | none => .ok .notMapped
  | some none => .ok .localOnly
  | some (some (g, a)) =>
    match get_latest_version_from_maven (search g a) with
    | .error u => .error u
    | .ok none => .ok .unavailable
    | .ok (some info) =>
      match info.version with
      | none => .error ()
      | some latest =>
        if 0 ≤ compare_versions local_version latest then .ok .upToDate
        else if fetch_ok g a latest then .ok (.updated local_version latest)
        else .ok (.error ("Failed to download " ++ latest))

/-! ## The engine's result set and per-entry step (`main`, lines 780-899) -/

structure RunResults where
  updated : List (String × String × String)
  up_to_date : List String
  unavailable : List String
  local_only : List String
  not_mapped : List String
  errors : List (String × String)
deriving DecidableEq, Repr

def emptyResults : RunResults := ⟨[], [], [], [], [], []⟩

/-- Total number of outcome records accumulated. -/
def countRecords (r : RunResults) : Nat :=
  r.updated.length + r.up_to_date.length + r.unavailable.length
    + r.local_only.length + r.not_mapped.length + r.errors.length

def REPO_DIR : String := "dependencies"

/-- `get_dest_dir_from_url` (lines 389-395): the first `/`-segment of
the index entry's URL under the repository directory.  (`str.split`
never returns an empty list, so the `len(parts) >= 1` branch always
runs.) -/
def get_dest_dir_from_url (url : String) : String :=
  REPO_DIR ++ "/" ++ (url.splitOn "/").headD ""

/-- The body of `main`'s index loop (lines 814-896) for one entry:
classification plus the fetch's filesystem effect.  `.error` is an
uncaught exception aborting the run with no record appended. -/
def process_index_entry (mapping_of : String → Option (Option (String × String)))
    (search : String → String → SearchResult)
    (http : String → Option String)
    (acc : RunResults × FS) (p : String × BundleEntry) :
    Except Unit (RunResults × FS) :=
  let res := acc.1
  let fs := acc.2
  let identity := p.1
  let lv := p.2.version
  match mapping_of identity with
  | none => .ok ({ res with not_mapped := res.not_mapped ++ [identity] }, fs)
  | some none => .ok ({ res with local_only := res.local_only ++ [identity] }, fs)
  | some (some (g, a)) =>
    match get_latest_version_from_maven (search g a) with
    | .error u => .error u
    | .ok none => .ok ({ res with unavailable := res.unavailable ++ [identity] }, fs)
    | .ok (some info) =>
      match info.version with
      | none => .error ()
      | some latest =>
        if 0 ≤ compare_versions lv latest then
          .ok ({ res with up_to_date := res.up_to_date ++ [identity] }, fs)
        else
          match download_jar http g a latest (get_dest_dir_from_url p.2.url) none fs with
          | (true, fs') =>
            .ok ({ res with updated := res.updated ++ [(identity, lv, latest)] }, fs')
          | (false, fs') =>
            .ok ({ res with errors :=
                res.errors ++ [(identity, "Failed to download " ++ latest)] }, fs')

/-! ## Additional downloads (`download_additional_bundles`, lines 397-552) -/

/-- One `additionalDownloads` entry: every field `item.get(...)` reads.
`hasComment` is whether the `_comment` key is present. -/
structure AddItem where
  hasComment : Bool
  groupId : Option String
  artifactId : Option String
  folder : Option String
  version : Option String
  source : Option String
  repoUrl : Option String
deriving DecidableEq, Repr

structure DlRecord where
  group_id : String
  artifact_id : String
  version : String
  folder : String
  source : String
deriving DecidableEq, Repr

structure ExistsRecord where
  group_id : String
  artifact_id : String
  version : String
  folder : String
deriving DecidableEq, Repr

structure ErrRecord where
  group_id : String
  artifact_id : String
  reason : String
deriving DecidableEq, Repr

structure AddResults where
  downloaded : List DlRecord
  errors : List ErrRecord
  already_exists : List ExistsRecord
deriving DecidableEq, Repr

def emptyAddResults : AddResults := ⟨[], [], []⟩

/-- Python truthiness of an optional string: `None` and `""` are falsy. -/
def pyTruthy (o : Option String) : Bool :=
  match o with
  | none => false
  | some s => s ≠ ""

/-- Python's f-string rendering of the resolved version: the literal
`None` when the matched doc carried neither version field (the source
then builds names like `a-None.jar` and carries the rendering into its
result dicts). -/
def pyStr? (o : Option String) : String :=
  match o with
  | some s => s
  | none => "None"

/-- Whether `dest_path.exists()`: the path was written (or pre-existed)
in the modelled filesystem. -/
def fs_has (fs : FS) (path : String) : Bool := fs.any (fun p => p.1 == path)

/-- One iteration of the `download_additional_bundles` loop
(lines 417-551): comment-only entries are skipped, falsy
`groupId`/`artifactId` are skipped, the `BND Hub` source takes the hub
path (pinned version defaulting to `4.3.0`), otherwise the version is
the pinned one when truthy or the Maven-then-mvnrepository resolution
(whose uncaught `IndexError` propagates, `.error`); a truthy custom
`repoUrl` replaces the default-then-fallback chain. -/
def process_additional_item (http : String → Option String)
    (search : String → String → SearchResult)
    (mvnrep : String → String → Option String)
    (check_existing : Bool)
    (acc : AddResults × FS) (item : AddItem) : Except Unit (AddResults × FS) :=
  let res := acc.1
  let fs := acc.2
  if item.hasComment && item.groupId.isNone then .ok (res, fs)
  else
    match item.groupId, item.artifactId with
    | some g, some a =>
      if g = "" ∨ a = "" then .ok (res, fs)
      else
        let folder := item.folder.getD "misc"
        let dest_dir := REPO_DIR ++ "/" ++ folder
        if item.source.getD "Maven Central" = "BND Hub" then
          let ver := if pyTruthy item.version then item.version.getD "" else "4.3.0"
          if check_existing && fs_has fs (dest_path dest_dir a ver) then
            .ok ({ res with already_exists := res.already_exists ++ [⟨g, a, ver, folder⟩] }, fs)
          else
            match download_from_bnd_hub http a ver dest_dir fs with
            | (true, fs') =>
              .ok ({ res with downloaded :=
                  res.downloaded ++ [⟨g, a, ver, folder, "BND Hub"⟩] }, fs')
            | (false, fs') =>
              .ok ({ res with errors :=
                  res.errors ++ [⟨g, a, "Failed to download from BND Hub"⟩] }, fs')
        else
          match (if pyTruthy item.version then .ok (some (some (item.version.getD "")))
                 else resolve_additional (search g a) (mvnrep g a) :
                 Except Unit (Option (Option String))) with
          | .error u => .error u
          | .ok none =>
            .ok ({ res with errors :=
                res.errors ++ [⟨g, a, "Not found on Maven Central or mvnrepository"⟩] }, fs)
          | .ok (some latestV) =>
            let latest := pyStr? latestV
            if check_existing && fs_has fs (dest_path dest_dir a latest) then
              .ok ({ res with already_exists :=
                  res.already_exists ++ [⟨g, a, latest, folder⟩] }, fs)
            else
              let failRec : ErrRecord :=
                ⟨g, a, "Failed to download " ++ latest ++ " from any repository"⟩
              if pyTruthy item.repoUrl then
                match download_jar http g a latest dest_dir item.repoUrl fs with
                | (true, fs') =>
                  .ok ({ res with downloaded :=
                      res.downloaded ++ [⟨g, a, latest, folder, item.repoUrl.getD ""⟩] }, fs')
                | (false, fs') => .ok ({ res with errors := res.errors ++ [failRec] }, fs')
              else
                match download_jar http g a latest dest_dir none fs with
                | (true, fs') =>
                  .ok ({ res with downloaded :=
                      res.downloaded ++ [⟨g, a, latest, folder, "Maven Central"⟩] }, fs')
                | (false, fs') =>
                  match download_jar_from_multiple_repos http g a latest dest_dir fs' with
                  | (some name, fs2) =>
                    .ok ({ res with downloaded :=
                        res.downloaded ++ [⟨g, a, latest, folder, name⟩] }, fs2)
                  | (none, fs2) => .ok ({ res with errors := res.errors ++ [failRec] }, fs2)
    | _, _ => .ok (res, fs)

/-- The `download_additional_bundles` loop in sequence; a raised
exception aborts the rest of the loop. -/
def download_additional_go (http : String → Option String)
    (search : String → String → SearchResult)
    (mvnrep : String → String → Option String) (check_existing : Bool) :
    List AddItem → AddResults × FS → Except Unit (AddResults × FS)
  | [], acc => .ok acc
  | item :: rest, acc =>
    match process_additional_item http search mvnrep check_existing acc item with
    | .error u => .error u
    | .ok acc' => download_additional_go http search mvnrep check_existing rest acc'

/-- `download_additional_bundles` (lines 397-552). -/
def download_additional_bundles (http : String → Option String)
    (search : String → String → SearchResult)
    (mvnrep : String → String → Option String)
    (adds : List AddItem) (check_existing : Bool) (fs : FS) :
    Except Unit (AddResults × FS) :=
  download_additional_go http search mvnrep check_existing adds (emptyAddResults, fs)

/-! ## The full-update run (`main`, lines 775-899) -/

/-- Ascending insertion by the identity key, for
`sorted(latest_bundles.items())` (identities are unique after
grouping, so tie order is immaterial). -/
def insertByKey (p : String × BundleEntry) :
    List (String × BundleEntry) → List (String × BundleEntry)
  | [] => [p]
  | q :: qs => if strLtB q.1 p.1 then q :: insertByKey p qs else p :: q :: qs

def sortByKey : List (String × BundleEntry) → List (String × BundleEntry)
  | [] => []
  | p :: ps => insertByKey p (sortByKey ps)

/-- The index loop of `main` in sequence; an uncaught exception aborts
the rest of the loop. -/
def process_index_go (mapping_of : String → Option (Option (String × String)))
    (search : String → String → SearchResult) (http : String → Option String) :
    List (String × BundleEntry) → RunResults × FS → Except Unit (RunResults × FS)
  | [], acc => .ok acc
  | p :: rest, acc =>
    match process_index_entry mapping_of search http acc p with
    | .error u => .error u
    | .ok acc' => process_index_go mapping_of search http rest acc'

/-- `main`'s default full-update path (lines 775-899): an absent index
document (`index = none`, lines 780-783) degrades to the empty entry
list; the index loop folds over the per-identity latest entries in
sorted order; then the additional-downloads loop runs
(`check_existing = False`). -/
def full_update (index : Option (List BundleEntry))
    (mapping_of : String → Option (Option (String × String)))
    (search : String → String → SearchResult)
    (mvnrep : String → String → Option String)
    (http : String → Option String)
    (adds : List AddItem) (fs : FS) :
    Except Unit (RunResults × (AddResults × FS)) :=
  let bundles := index.getD []
  let entries := sortByKey (latest_bundles bundles)
  match process_index_go mapping_of search http entries (emptyResults, fs) with
  | .error u => .error u
  | .ok step =>
    match download_additional_bundles http search mvnrep adds false step.2 with
    | .error u => .error u
    | .ok ares => .ok (step.1, ares)

/-! ## Claim theorems for the reconciliation engine (C4, C2, C9) -/

theorem classify_shape (m : Option (Option (String × String)))
    (search : String → String → SearchResult) (f : String → String → String → Bool)
    (lv : String) :
    (m = none ∧ main_classify_index_entry m search f lv = .ok .notMapped) ∨
    (m = some none ∧ main_classify_index_entry m search f lv = .ok .localOnly) ∨
    (∃ g a, m = some (some (g, a)) ∧
      ((∃ u, get_latest_version_from_maven (search g a) = .error u ∧
         main_classify_index_entry m search f lv = .error u) ∨
       (get_latest_version_from_maven (search g a) = .ok none ∧
         main_classify_index_entry m search f lv = .ok .unavailable) ∨
       (∃ info, get_latest_version_from_maven (search g a) = .ok (some info) ∧
         ((info.version = none ∧ main_classify_index_entry m search f lv = .error ()) ∨
          (∃ latest, info.version = some latest ∧
            ((0 ≤ compare_versions lv latest ∧
               main_classify_index_entry m search f lv = .ok .upToDate) ∨
             (compare_versions lv latest < 0 ∧ f g a latest = true ∧
               main_classify_index_entry m search f lv = .ok (.updated lv latest)) ∨
             (compare_versions lv latest < 0 ∧ f g a latest = false ∧
               main_classify_index_entry m search f lv
                 = .ok (.error ("Failed to download " ++ latest))))))))) := by
  rcases m with _ | (_ | ⟨g, a⟩)
  · exact Or.inl ⟨rfl, rfl⟩
  · exact Or.inr (Or.inl ⟨rfl, rfl⟩)
  · refine Or.inr (Or.inr ⟨g, a, rfl, ?_⟩)
    rcases hr : get_latest_version_from_maven (search g a) with u | (_ | info)
    · exact Or.inl ⟨u, rfl, by simp [main_classify_index_entry, hr]⟩
    · exact Or.inr (Or.inl ⟨rfl, by simp [main_classify_index_entry, hr]⟩)
    · refine Or.inr (Or.inr ⟨info, rfl, ?_⟩)
      rcases hv : info.version with _ | latest
      · exact Or.inl ⟨rfl, by simp [main_classify_index_entry, hr, hv]⟩
      · refine Or.inr ⟨latest, rfl, ?_⟩
        by_cases hc : 0 ≤ compare_versions lv latest
        · exact Or.inl ⟨hc, by simp [main_classify_index_entry, hr, hv, hc]⟩
        · cases hf : f g a latest
          · refine Or.inr (Or.inr ⟨by omega, rfl, ?_⟩)
            simp [main_classify_index_entry, hr, hv, hc, hf]
          · refine Or.inr (Or.inl ⟨by omega, rfl, ?_⟩)
            simp [main_classify_index_entry, hr, hv, hc, hf]

/-- C4 is false as stated: an index-derived entry can yield NO outcome
record.  With a mapped identity and a central-search response of
`numFound = 1` with an empty `docs` array, the source raises
`IndexError` at `docs[0]` (line 128), which the `except` tuple of line
134 does not catch, and the run aborts; with a first doc carrying
neither `latestVersion` nor `v`, the resolver returns a `None` version
and `main` dies with an uncaught `TypeError` inside
`compare_versions(local_version, None)` at line 863.  In both cases
the per-entry step is an uncaught exception appending no record. -/
theorem classification_crash_paths :
    main_classify_index_entry (some (some ("g", "a"))) (fun _ _ => .ok 1 [])
        (fun _ _ _ => true) "1.0" = .error () ∧
    main_classify_index_entry (some (some ("g", "a")))
        (fun _ _ => .ok 1 [⟨none, none, "g", "a"⟩]) (fun _ _ _ => true) "1.0"
      = .error () ∧
    process_index_entry (fun _ => some (some ("g", "a"))) (fun _ _ => .ok 1 [])
        (fun _ => none) (emptyResults, []) ("x", ⟨"x", "1.0", "u"⟩) = .error () :=
  ⟨rfl, rfl, rfl⟩

/-- C4 amended: an index-derived entry yields exactly one outcome
record whenever its central-search response avoids the two degenerate
crash corners, on which the run instead aborts with no record.  The
conjuncts state: whenever the per-entry step completes, the six result
lists grow by exactly one record in total; the abort happens exactly on
the two corners (a raised `IndexError`, or a resolved doc without a
version field); and the six outcome kinds are mutually exclusive,
decided in the claimed fixed order — absent mapping `notMapped`,
coordinate-less mapping `localOnly`, resolver not-found `unavailable`,
local ≥ resolved `upToDate`, local < resolved `updated (local,
resolved)` on fetch success and `error` on fetch failure. -/
theorem classify_total_and_ordered
    (mapping_of : String → Option (Option (String × String)))
    (search : String → String → SearchResult) (http : String → Option String)
    (res : RunResults) (fs : FS) (p : String × BundleEntry)
    (m : Option (Option (String × String)))
    (f : String → String → String → Bool) (lv : String) :
    (∀ out, process_index_entry mapping_of search http (res, fs) p = .ok out →
      countRecords out.1 = countRecords res + 1) ∧
    (∀ u, main_classify_index_entry m search f lv = .error u ↔
      ∃ g a, m = some (some (g, a)) ∧
        (get_latest_version_from_maven (search g a) = .error u ∨
         ∃ info, get_latest_version_from_maven (search g a) = .ok (some info) ∧
           info.version = none)) ∧
    (main_classify_index_entry m search f lv = .ok .notMapped ↔ m = none) ∧
    (main_classify_index_entry m search f lv = .ok .localOnly ↔ m = some none) ∧
    (main_classify_index_entry m search f lv = .ok .unavailable ↔
      ∃ g a, m = some (some (g, a)) ∧
        get_latest_version_from_maven (search g a) = .ok none) ∧
    (main_classify_index_entry m search f lv = .ok .upToDate ↔
      ∃ g a info latest, m = some (some (g, a)) ∧
        get_latest_version_from_maven (search g a) = .ok (some info) ∧
        info.version = some latest ∧ 0 ≤ compare_versions lv latest) ∧
    (∀ o n, main_classify_index_entry m search f lv = .ok (.updated o n) ↔
      ∃ g a info, m = some (some (g, a)) ∧
        get_latest_version_from_maven (search g a) = .ok (some info) ∧
        info.version = some n ∧ o = lv ∧
        compare_versions lv n < 0 ∧ f g a n = true) ∧
    (∀ s, main_classify_index_entry m search f lv = .ok (.error s) ↔
      ∃ g a info latest, m = some (some (g, a)) ∧
        get_latest_version_from_maven (search g a) = .ok (some info) ∧
        info.version = some latest ∧
        compare_versions lv latest < 0 ∧ f g a latest = false ∧
        s = "Failed to download " ++ latest) := by
  refine ⟨?_, ?_, ?_, ?_, ?_, ?_, ?_, ?_⟩
  · intro out hout
    unfold process_index_entry at hout
    rcases hm : mapping_of p.1 with _ | (_ | ⟨g, a⟩)
    · simp only [hm] at hout
      obtain rfl : ({ res with not_mapped := res.not_mapped ++ [p.1] }, fs) = out := by
        injection hout
      simp [countRecords]
      omega
    · simp only [hm] at hout
      obtain rfl : ({ res with local_only := res.local_only ++ [p.1] }, fs) = out := by
        injection hout
      simp [countRecords]
      omega
    · rcases hr : get_latest_version_from_maven (search g a) with u | (_ | info)
      · simp only [hm, hr] at hout
        exact absurd hout (by simp)
      · simp only [hm, hr] at hout
        obtain rfl : ({ res with unavailable := res.unavailable ++ [p.1] }, fs) = out := by
          injection hout
        simp [countRecords]
        omega
      · rcases hv : info.version with _ | latest
        · simp only [hm, hr, hv] at hout
          exact absurd hout (by simp)
        · by_cases hc : 0 ≤ compare_versions p.2.version latest
          · simp only [hm, hr, hv, if_pos hc] at hout
            obtain rfl : ({ res with up_to_date := res.up_to_date ++ [p.1] }, fs) = out := by
              injection hout
            simp [countRecords]
            omega
          · rcases hdj : download_jar http g a latest (get_dest_dir_from_url p.2.url) none fs
              with ⟨b, fs'⟩
            cases b
            · simp only [hm, hr, hv, if_neg hc, hdj] at hout
              obtain rfl : ({ res with errors :=
                  res.errors ++ [(p.1, "Failed to download " ++ latest)] }, fs') = out := by
                injection hout
              simp [countRecords]
              omega
            · simp only [hm, hr, hv, if_neg hc, hdj] at hout
              obtain rfl : ({ res with updated :=
                  res.updated ++ [(p.1, p.2.version, latest)] }, fs') = out := by
                injection hout
              simp [countRecords]
              omega
  · intro u
    cases u
    constructor
    · intro h
      rcases classify_shape m search f lv with ⟨hm, hcl⟩ | ⟨hm, hcl⟩ |
        ⟨g, a, hm, ⟨u', hgl, hcl⟩ | ⟨hgl, hcl⟩ |
          ⟨info, hgl, ⟨hv, hcl⟩ | ⟨latest, hv, ⟨hc, hcl⟩ | ⟨hc, hf, hcl⟩ | ⟨hc, hf, hcl⟩⟩⟩⟩
      · rw [h] at hcl; simp at hcl
      · rw [h] at hcl; simp at hcl
      · cases u'
        exact ⟨g, a, hm, Or.inl hgl⟩
      · rw [h] at hcl; simp at hcl
      · exact ⟨g, a, hm, Or.inr ⟨info, hgl, hv⟩⟩
      · rw [h] at hcl; simp at hcl
      · rw [h] at hcl; simp at hcl
      · rw [h] at hcl; simp at hcl
    · rintro ⟨g, a, rfl, hgl | ⟨info, hgl, hv⟩⟩
      · simp [main_classify_index_entry, hgl]
      · simp [main_classify_index_entry, hgl, hv]
  · constructor
    · intro h
      rcases classify_shape m search f lv with ⟨hm, hcl⟩ | ⟨hm, hcl⟩ |
        ⟨g, a, hm, ⟨u', hgl, hcl⟩ | ⟨hgl, hcl⟩ |
          ⟨info, hgl, ⟨hv, hcl⟩ | ⟨latest, hv, ⟨hc, hcl⟩ | ⟨hc, hf, hcl⟩ | ⟨hc, hf, hcl⟩⟩⟩⟩
      · exact hm
      all_goals rw [h] at hcl; simp at hcl
    · rintro rfl; rfl
  · constructor
    · intro h
      rcases classify_shape m search f lv with ⟨hm, hcl⟩ | ⟨hm, hcl⟩ |
        ⟨g, a, hm, ⟨u', hgl, hcl⟩ | ⟨hgl, hcl⟩ |
          ⟨info, hgl, ⟨hv, hcl⟩ | ⟨latest, hv, ⟨hc, hcl⟩ | ⟨hc, hf, hcl⟩ | ⟨hc, hf, hcl⟩⟩⟩⟩
      · rw [h] at hcl; simp at hcl
      · exact hm
      all_goals rw [h] at hcl; simp at hcl
    · rintro rfl; rfl
  · constructor
    · intro h
      rcases classify_shape m search f lv with ⟨hm, hcl⟩ | ⟨hm, hcl⟩ |
        ⟨g, a, hm, ⟨u', hgl, hcl⟩ | ⟨hgl, hcl⟩ |
          ⟨info, hgl, ⟨hv, hcl⟩ | ⟨latest, hv, ⟨hc, hcl⟩ | ⟨hc, hf, hcl⟩ | ⟨hc, hf, hcl⟩⟩⟩⟩
      · rw [h] at hcl; simp at hcl
      · rw [h] at hcl; simp at hcl
      · rw [h] at hcl; simp at hcl
      · exact ⟨g, a, hm, hgl⟩
      all_goals rw [h] at hcl; simp at hcl
    · rintro ⟨g, a, rfl, hgl⟩
      simp [main_classify_index_entry, hgl]
  · constructor
    · intro h
      rcases classify_shape m search f lv with ⟨hm, hcl⟩ | ⟨hm, hcl⟩ |
        ⟨g, a, hm, ⟨u', hgl, hcl⟩ | ⟨hgl, hcl⟩ |
          ⟨info, hgl, ⟨hv, hcl⟩ | ⟨latest, hv, ⟨hc, hcl⟩ | ⟨hc, hf, hcl⟩ | ⟨hc, hf, hcl⟩⟩⟩⟩
      · rw [h] at hcl; simp at hcl
      · rw [h] at hcl; simp at hcl
      · rw [h] at hcl; simp at hcl
      · rw [h] at hcl; simp at hcl
      · rw [h] at hcl; simp at hcl
      · exact ⟨g, a, info, latest, hm, hgl, hv, hc⟩
      all_goals rw [h] at hcl; simp at hcl
    · rintro ⟨g, a, info, latest, rfl, hgl, hv, hc⟩
      simp [main_classify_index_entry, hgl, hv, hc]
  · intro o n
    constructor
    · intro h
      rcases classify_shape m search f lv with ⟨hm, hcl⟩ | ⟨hm, hcl⟩ |
        ⟨g, a, hm, ⟨u', hgl, hcl⟩ | ⟨hgl, hcl⟩ |
          ⟨info, hgl, ⟨hv, hcl⟩ | ⟨latest, hv, ⟨hc, hcl⟩ | ⟨hc, hf, hcl⟩ | ⟨hc, hf, hcl⟩⟩⟩⟩
      · rw [h] at hcl; simp at hcl
      · rw [h] at hcl; simp at hcl
      · rw [h] at hcl; simp at hcl
      · rw [h] at hcl; simp at hcl
      · rw [h] at hcl; simp at hcl
      · rw [h] at hcl; simp at hcl
      · rw [h] at hcl
        obtain ⟨ho, hn⟩ : o = lv ∧ n = latest := by simpa using hcl
        subst ho; subst hn
        exact ⟨g, a, info, hm, hgl, hv, rfl, hc, hf⟩
      · rw [h] at hcl; simp at hcl
    · rintro ⟨g, a, info, rfl, hgl, hv, rfl, hc, hf⟩
      simp [main_classify_index_entry, hgl, hv, hf,
        show ¬ 0 ≤ compare_versions o n by omega]
  · intro s
    constructor
    · intro h
      rcases classify_shape m search f lv with ⟨hm, hcl⟩ | ⟨hm, hcl⟩ |
        ⟨g, a, hm, ⟨u', hgl, hcl⟩ | ⟨hgl, hcl⟩ |
          ⟨info, hgl, ⟨hv, hcl⟩ | ⟨latest, hv, ⟨hc, hcl⟩ | ⟨hc, hf, hcl⟩ | ⟨hc, hf, hcl⟩⟩⟩⟩
      · rw [h] at hcl; simp at hcl
      · rw [h] at hcl; simp at hcl
      · rw [h] at hcl; simp at hcl
      · rw [h] at hcl; simp at hcl
      · rw [h] at hcl; simp at hcl
      · rw [h] at hcl; simp at hcl
      · rw [h] at hcl; simp at hcl
      · rw [h] at hcl
        obtain hs : s = "Failed to download " ++ latest := by simpa using hcl
        exact ⟨g, a, info, latest, hm, hgl, hv, hc, hf, hs⟩
    · rintro ⟨g, a, info, latest, rfl, hgl, hv, hc, hf, rfl⟩
      simp [main_classify_index_entry, hgl, hv, hf,
        show ¬ 0 ≤ compare_versions lv latest by omega]

/-- C2 is false as stated: an index-derived entry whose central search
fails with a transport error is classified `unavailable` directly by
the main loop, although the mvnrepository fallback — which here knows
version 9.9 and is consulted by the additional-downloads path at the
very same inputs — is never queried for index entries. -/
theorem index_entries_skip_fallback :
    main_classify_index_entry (some (some ("g", "a")))
        (fun _ _ => .transportError) (fun _ _ _ => true) "1.0" = .ok .unavailable ∧
    resolve_additional .transportError (some "9.9") = .ok (some (some "9.9")) :=
  ⟨rfl, rfl⟩

/-- C2 amended: every transport error, malformed response, and
zero-match response from the central search endpoint is treated as
not-found (never fatal); for additional-downloads entries a not-found
central result triggers the mvnrepository HTML-scraping fallback before
the entry is classified; index-derived entries, however, are classified
`unavailable` from the central lookup alone — the fallback is not part
of that loop. -/
theorem resolver_not_found_semantics (docs : List SearchDoc) (mvnrep : Option String) :
    (get_latest_version_from_maven .transportError = .ok none ∧
     get_latest_version_from_maven .malformed = .ok none ∧
     get_latest_version_from_maven (.ok 0 docs) = .ok none) ∧
    (∀ resp, get_latest_version_from_maven resp = .ok none →
      resolve_additional resp mvnrep = .ok (mvnrep.map some)) ∧
    (∀ (search : String → String → SearchResult)
        (fetch : String → String → String → Bool) (lv g a : String),
      get_latest_version_from_maven (search g a) = .ok none →
      main_classify_index_entry (some (some (g, a))) search fetch lv
        = .ok .unavailable) := by
  refine ⟨⟨rfl, rfl, by simp [get_latest_version_from_maven]⟩, ?_, ?_⟩
  · intro resp h
    simp only [resolve_additional, h]
    cases mvnrep <;> simp
  · intro search fetch lv g a h
    simp [main_classify_index_entry, h]

/-- C9: with the index document absent the full update does not halt:
the index loop runs over no entries, produces no outcome records, and
the run reduces to processing exactly the explicit additionalDownloads
list. -/
theorem full_update_absent_index
    (mapping_of : String → Option (Option (String × String)))
    (search : String → String → SearchResult)
    (mvnrep : String → String → Option String)
    (http : String → Option String) (adds : List AddItem) (fs : FS) :
    full_update none mapping_of search mvnrep http adds fs
      = (download_additional_bundles http search mvnrep adds false fs).map
          (fun r => (emptyResults, r)) := by
  cases h : download_additional_bundles http search mvnrep adds false fs with
  | error u => simp [full_update, process_index_go, h, Except.map]
  | ok r => simp [full_update, process_index_go, h, Except.map]

/-! ## BND Hub version selection (`get_latest_version_from_bnd_hub`, lines 245-274)

The GitHub listing is a list of `{type, name}` items.  The sort key is
`[int(x) if x.isdigit() else x for x in re.split(r"[._-]", v)]` — note:
no qualifier stripping, and `isdigit` instead of `int(...)` with its
sign/whitespace tolerance.  Python compares two such key lists
lexicographically with `==`/`<` per position; `<` between an `int` and
a `str` raises `TypeError`, which none of the function's `except`
clauses catches — modelled as the `Except.error` result. -/

structure HubItem where
  type : String
  name : String
deriving DecidableEq, Repr

/-- `name.startswith(pre)` on character lists (the byte-position based
`String` primitives do not reduce inside the kernel). -/
def strStartsWith (s pre : String) : Bool := pre.toList.isPrefixOf s.toList

/-- `name.endswith(suffix)` on character lists. -/
def strEndsWith (s suffix : String) : Bool := suffix.toList.isSuffixOf s.toList

/-- `name[len(bundle_name) + 1 : -4]` (line 265). -/
def hubVersionOf (bundle_name name : String) : String :=
  let l := name.toList.drop (bundle_name.toList.length + 1)
  ⟨l.take (l.length - 4)⟩

/-- The version suffixes collected from the listing (lines 259-266):
files named `<bundle_name>-<version>.jar`. -/
def hub_versions (bundle_name : String) (items : List HubItem) : List String :=
  items.filterMap (fun item =>
    if item.type == "file" && strEndsWith item.name ".jar"
        && strStartsWith item.name (bundle_name ++ "-") then
      some (hubVersionOf bundle_name item.name)
    else none)

/-- One sort-key token: `int(x) if x.isdigit() else x`. -/
def hubTok (l : List Char) : VTok :=
  if l ≠ [] ∧ l.all Char.isDigit then .num (digitsToNat l) else .str ⟨l⟩

/-- The sort key of line 270. -/
def hubKey (v : String) : List VTok := (splitChars v.toList).map hubTok

/-- Python's `<` on two sort-key tokens: numeric for two ints, string
order for two strs, `TypeError` for a mixed pair. -/
def pyLtTok : VTok → VTok → Except Unit Bool
  | .num x, .num y => .ok (decide (x < y))
  | .str s, .str t => .ok (strLtB s t)
  | _, _ => .error ()

/-- Python's `<` on two key lists: scan to the first position whose
elements differ under `==` (which never raises), compare there with `<`
(which raises on a mixed pair), fall back to the length comparison. -/
def pyListLt : List VTok → List VTok → Except Unit Bool
  | [], [] => .ok false
  | [], _ :: _ => .ok true
  | _ :: _, [] => .ok false
  | a :: as, b :: bs => if a == b then pyListLt as bs else pyLtTok a b

/-- Stable descending insertion under the partial key order, each
comparison able to raise: the model of `versions.sort(key=...,
reverse=True)` followed by taking the head.  (CPython's sort may
compare different pairs than insertion sort does, but on two elements
both compare the one pair, and under pairwise comparability both
compute the same stable descending order.) -/
def hubInsert (e : String) : List String → Except Unit (List String)
  | [] => .ok [e]
  | f :: fs =>
    match pyListLt (hubKey e) (hubKey f) with
    | .error u => .error u
    | .ok true =>
      match hubInsert e fs with
      | .error u => .error u
      | .ok r => .ok (f :: r)
    | .ok false => .ok (e :: f :: fs)

def hubSort : List String → Except Unit (List String)
  | [] => .ok []
  | e :: es =>
    match hubSort es with
    | .error u => .error u
    | .ok r => hubInsert e r

/-- `get_latest_version_from_bnd_hub` (lines 245-274) given the parsed
listing: no matching file yields `None`; otherwise the head of the
descending sort, whose comparisons may raise the uncaught `TypeError`
(`error`). -/
def get_latest_version_from_bnd_hub (bundle_name : String) (items : List HubItem) :
    Except Unit (Option String) :=
  match hub_versions bundle_name items with
  | [] => .ok none
  | v :: vs =>
    match hubSort (v :: vs) with
    | .error u => .error u
    | .ok sorted => .ok sorted.head?

/-! ### Order lemmas for the hub sort -/

theorem pyListLt_self : ∀ l : List VTok, pyListLt l l = .ok false
  | [] => rfl
  | a :: as => by simp [pyListLt, pyListLt_self as]

theorem pyListLt_cons_same (a : VTok) (as bs : List VTok) :
    pyListLt (a :: as) (a :: bs) = pyListLt as bs := by
  simp [pyListLt]

theorem pyListLt_cons_ne {a b : VTok} (h : a ≠ b) (as bs : List VTok) :
    pyListLt (a :: as) (b :: bs) = pyLtTok a b := by
  simp [pyListLt, beq_eq_false_iff_ne.mpr h]

theorem pyLtTok_asymm {a b : VTok} (h : pyLtTok a b = .ok true) :
    pyLtTok b a = .ok false := by
  cases a with
  | num x =>
    cases b with
    | num y =>
      have hxy : x < y := of_decide_eq_true (by injection h)
      have hd : decide (y < x) = false := decide_eq_false (by omega)
      simp only [pyLtTok, hd]
    | str t => exact absurd h (by simp [pyLtTok])
  | str s =>
    cases b with
    | num y => exact absurd h (by simp [pyLtTok])
    | str t =>
      have hst : strLtB s t = true := by injection h
      have hd : strLtB t s = false := Bool.eq_false_iff.mpr
        (fun hh => asymm (strLtB_iff.mp hst) (strLtB_iff.mp hh))
      simp only [pyLtTok, hd]

theorem pyListLt_asymm :
    ∀ {l1 l2 : List VTok}, pyListLt l1 l2 = .ok true → pyListLt l2 l1 = .ok false
  | [], [], h => by simp [pyListLt] at h
  | [], b :: bs, _ => rfl
  | a :: as, [], h => by simp [pyListLt] at h
  | a :: as, b :: bs, h => by
    by_cases hab : a = b
    · subst hab
      rw [pyListLt_cons_same] at h ⊢
      exact pyListLt_asymm h
    · rw [pyListLt_cons_ne hab] at h
      rw [pyListLt_cons_ne (Ne.symm hab)]
      exact pyLtTok_asymm h

theorem pyLtTok_ff_trans {a b c : VTok} (hab : pyLtTok a b = .ok false)
    (hbc : pyLtTok b c = .ok false) (hne1 : a ≠ b) (hne2 : b ≠ c) :
    a ≠ c ∧ pyLtTok a c = .ok false := by
  cases a with
  | num x =>
    cases b with
    | num y =>
      cases c with
      | num z =>
        have h1 : ¬ x < y := of_decide_eq_false (by injection hab)
        have h2 : ¬ y < z := of_decide_eq_false (by injection hbc)
        have hyz : y ≠ z := fun hh => hne2 (congrArg VTok.num hh)
        have hxz : x ≠ z := by omega
        refine ⟨fun hh => hxz (by injection hh), ?_⟩
        have hd : decide (x < z) = false := decide_eq_false (by omega)
        simp only [pyLtTok, hd]
      | str u => exact absurd hbc (by simp [pyLtTok])
    | str t => exact absurd hab (by simp [pyLtTok])
  | str s =>
    cases b with
    | num y => exact absurd hab (by simp [pyLtTok])
    | str t =>
      cases c with
      | num z => exact absurd hbc (by simp [pyLtTok])
      | str u =>
        have h1 : strLtB s t = false := by injection hab
        have h2 : strLtB t u = false := by injection hbc
        have hts : ¬ s < t := fun hh => by
          rw [strLtB_iff.mpr hh] at h1
          exact absurd h1 (by simp)
        have htu : ¬ t < u := fun hh => by
          rw [strLtB_iff.mpr hh] at h2
          exact absurd h2 (by simp)
        have htneu : t ≠ u := fun hh => hne2 (congrArg VTok.str hh)
        have hsu : s ≠ u := by
          intro hh
          subst hh
          exact htneu (le_antisymm (not_lt.mp hts) (not_lt.mp htu))
        refine ⟨fun hh => hsu (by injection hh), ?_⟩
        have hd : strLtB s u = false := Bool.eq_false_iff.mpr (fun hh =>
          absurd (strLtB_iff.mp hh)
            (not_lt.mpr (le_trans (not_lt.mp htu) (not_lt.mp hts))))
        simp only [pyLtTok, hd]

theorem pyListLt_ff_trans :
    ∀ {l1 l2 l3 : List VTok}, pyListLt l1 l2 = .ok false →
      pyListLt l2 l3 = .ok false → pyListLt l1 l3 = .ok false
  | [], l2, l3, h12, h23 => by
    cases l2 with
    | nil =>
      cases l3 with
      | nil => rfl
      | cons z zs => simp [pyListLt] at h23
    | cons y ys => simp [pyListLt] at h12
  | x :: xs, l2, l3, h12, h23 => by
    cases l3 with
    | nil => rfl
    | cons z zs =>
      cases l2 with
      | nil => simp [pyListLt] at h23
      | cons y ys =>
        by_cases hxy : x = y
        · subst hxy
          rw [pyListLt_cons_same] at h12
          by_cases hyz : x = z
          · subst hyz
            rw [pyListLt_cons_same] at h23 ⊢
            exact pyListLt_ff_trans h12 h23
          · rw [pyListLt_cons_ne hyz] at h23
            rw [pyListLt_cons_ne hyz]
            exact h23
        · rw [pyListLt_cons_ne hxy] at h12
          by_cases hyz : y = z
          · subst hyz
            rw [pyListLt_cons_ne hxy]
            exact h12
          · rw [pyListLt_cons_ne hyz] at h23
            obtain ⟨hxz, hlt⟩ := pyLtTok_ff_trans h12 h23 hxy hyz
            rw [pyListLt_cons_ne hxz]
            exact hlt

theorem hubInsert_ok_ne_nil :
    ∀ {e : String} {l l' : List String}, hubInsert e l = .ok l' → l' ≠ []
  | e, [], l', h => by
    simp only [hubInsert] at h
    obtain rfl : [e] = l' := by injection h
    simp
  | e, f :: fs, l', h => by
    rcases hlt : pyListLt (hubKey e) (hubKey f) with u | b
    · simp only [hubInsert, hlt] at h
      exact absurd h (by simp)
    · cases b
      · simp only [hubInsert, hlt] at h
        obtain rfl : e :: f :: fs = l' := by injection h
        simp
      · rcases hins : hubInsert e fs with u | r
        · simp only [hubInsert, hlt, hins] at h
          exact absurd h (by simp)
        · simp only [hubInsert, hlt, hins] at h
          obtain rfl : f :: r = l' := by injection h
          simp

theorem hubSort_ok_nil : ∀ {l : List String}, hubSort l = .ok [] → l = []
  | [], _ => rfl
  | e :: es, h => by
    rcases hs : hubSort es with u | r
    · simp only [hubSort, hs] at h
      exact absurd h (by simp)
    · simp only [hubSort, hs] at h
      exact absurd rfl (hubInsert_ok_ne_nil h)

theorem hubSort_head_max :
    ∀ {l sorted : List String}, hubSort l = .ok sorted →
      ∀ {m}, sorted.head? = some m →
        m ∈ l ∧ ∀ v ∈ l, pyListLt (hubKey m) (hubKey v) = .ok false
  | [], sorted, h, m, hm => by
    simp only [hubSort] at h
    obtain rfl : ([] : List String) = sorted := by injection h
    simp at hm
  | e :: es, sorted, h, m, hm => by
    rcases hs : hubSort es with u | r
    · simp only [hubSort, hs] at h
      exact absurd h (by simp)
    · simp only [hubSort, hs] at h
      cases r with
      | nil =>
        obtain rfl : es = [] := hubSort_ok_nil hs
        simp only [hubInsert] at h
        obtain rfl : [e] = sorted := by injection h
        obtain rfl : e = m := by simpa using hm
        exact ⟨by simp, by simp [pyListLt_self]⟩
      | cons f fs =>
        have ihf := hubSort_head_max hs (m := f) rfl
        rcases hlt : pyListLt (hubKey e) (hubKey f) with u | b
        · simp only [hubInsert, hlt] at h
          exact absurd h (by simp)
        · cases b
          · simp only [hubInsert, hlt] at h
            obtain rfl : e :: f :: fs = sorted := by injection h
            obtain rfl : e = m := by simpa using hm
            refine ⟨by simp, ?_⟩
            intro v hv
            rcases List.mem_cons.mp hv with rfl | hv
            · exact pyListLt_self _
            · exact pyListLt_ff_trans hlt (ihf.2 v hv)
          · rcases hins : hubInsert e fs with u | r2
            · simp only [hubInsert, hlt, hins] at h
              exact absurd h (by simp)
            · simp only [hubInsert, hlt, hins] at h
              obtain rfl : f :: r2 = sorted := by injection h
              obtain rfl : f = m := by simpa using hm
              refine ⟨List.mem_cons_of_mem _ ihf.1, ?_⟩
              intro v hv
              rcases List.mem_cons.mp hv with rfl | hv
              · exact pyListLt_asymm hlt
              · exact ihf.2 v hv

/-! ### Claim theorems for C7 -/

/-- C7 is false as stated: for the listing `b-1.2.jar`, `b-1.a.jar` the
extracted versions are `1.2` and `1.a`; the sort compares the integer
token 2 against the string token `a`, which raises an uncaught
`TypeError` in the source (the `error` result here) — no maximum is
returned for this mixed numeric/alphabetic input. -/
theorem bnd_hub_mixed_tokens_type_error :
    get_latest_version_from_bnd_hub "b" [⟨"file", "b-1.2.jar"⟩, ⟨"file", "b-1.a.jar"⟩]
      = .error () ∧
    hub_versions "b" [⟨"file", "b-1.2.jar"⟩, ⟨"file", "b-1.a.jar"⟩] = ["1.2", "1.a"] :=
  ⟨rfl, rfl⟩

/-- C7 amended: the resolver extracts the version suffix of every
listed file named `<name>-<version>.jar`, and whenever the sort
completes without Python's `TypeError` — in particular whenever no two
extracted versions put a numeric and a non-numeric token at their first
differing position — the returned version is one of the extracted ones
and is maximal under the per-token order (numeric for all-digit tokens,
raw string otherwise). -/
theorem get_latest_version_from_bnd_hub_max (bundle_name : String)
    (items : List HubItem) (m : String)
    (h : get_latest_version_from_bnd_hub bundle_name items = .ok (some m)) :
    m ∈ hub_versions bundle_name items ∧
    ∀ v ∈ hub_versions bundle_name items, pyListLt (hubKey m) (hubKey v) = .ok false := by
  unfold get_latest_version_from_bnd_hub at h
  rcases hv : hub_versions bundle_name items with _ | ⟨a, as⟩
  · simp only [hv] at h
    exact absurd h (by simp)
  · simp only [hv] at h
    rcases hs : hubSort (a :: as) with u | sorted
    · simp only [hs] at h
      exact absurd h (by simp)
    · simp only [hs] at h
      have hm : sorted.head? = some m := by injection h
      exact hubSort_head_max hs hm

/-- The amended C7 theorem at a concrete listing: `1.10.0` beats
`1.2.0` under the per-token numeric order. -/
theorem get_latest_version_from_bnd_hub_max_witness :
    "1.10.0" ∈ hub_versions "b" [⟨"file", "b-1.2.0.jar"⟩, ⟨"file", "b-1.10.0.jar"⟩] ∧
    ∀ v ∈ hub_versions "b" [⟨"file", "b-1.2.0.jar"⟩, ⟨"file", "b-1.10.0.jar"⟩],
      pyListLt (hubKey "1.10.0") (hubKey v) = .ok false :=
  get_latest_version_from_bnd_hub_max "b"
    [⟨"file", "b-1.2.0.jar"⟩, ⟨"file", "b-1.10.0.jar"⟩] "1.10.0" rfl

end UpdateDeps
